import Mathlib

/-!
Verification of the driver `Radio_continuum_validation.py` of the
MeerKAT continuum validation pipeline.

The driver is shallowly embedded as follows.

* The docopt argument dictionary becomes the structure `RawArgs`; the
  string options `--fits`, `--main`, `--noise`, `--filter`, `--SEDs`,
  `--SEDfig` keep their sentinel value, the literal string view of
  Python `"None"`, exactly as the code compares them; numeric options
  (`--ncores`, `--nbins`, `--correct`, `--snr`) are taken already
  parsed (the code applies `int`/`float` to them unconditionally).
* The parameter dictionary built by `process_args` becomes the
  structure `Parms` with one field per key.
* Calls into the external collaborators (`radio_image.run_BANE`,
  `radio_image.run_Aegean`, `catalogue(...)` construction,
  `catalogue.filter_sources`, `catalogue.set_specs`, `report(...)`,
  `catalogue.process_config_file`, `catalogue.fit_spectra`,
  `report.validate`, `report.write_html_end`,
  `radio_image.correct_img`, `changeDir`) are recorded as `Event`
  values; a driver function is embedded as a function returning the
  list of events it emits, in order, together with its result.
* Collaborator behaviour that the driver branches on is passed in as
  explicit parameters: the filesystem `glob` expansion, the main-dir
  resolution (which inspects the environment), the parsed content of
  the filter config file (`config2dic`), the cross-match step
  `catalogue.process_config_file` (which may raise; `none` models a
  raised exception), the evolving catalogue state (`CatState`: the
  `cat_list` and `count` attributes the driver reads), and the metric
  table `report.metric_val`.
* `sys.exit` in `process_args` is modelled by returning `none`;
  a Python `UnboundLocalError` / `AttributeError` crash is modelled by
  a `none` / `false` completion flag at the point the code would raise.

Helpers from `functions.py` (not part of the driver file) are modelled
from their use sites and the docopt usage text: `parse_string` maps the
string `"None"` to Python `None`, and `new_path` prefixes a relative
path with `../` (the code comment: output files live one directory
down), preserving `None`.

The file-name helper `create_suffix` only formats output names and no
claim concerns it, so it is not embedded.
-/

/-- A value appearing in a key-value config dictionary (`config2dic`
output) or passed as a keyword argument: bool, rational number,
integer, or string. -/
inductive ConfigVal where
  | b (x : Bool)
  | q (x : ℚ)
  | n (x : Int)
  | s (x : String)
deriving DecidableEq

/-- The value stored under `parms['SEDs']`: either the list produced by
`args['--SEDs'].split(',')` or the bare string `'pow'` that overwrites
it when `--SEDs` is `None`. -/
inductive SEDsVal where
  | list (models : List String)
  | single (s : String)
deriving DecidableEq

/-- How the main catalogue object was built in `create_cat`: from the
Aegean source-finder output, or from a supplied catalogue config file. -/
inductive Provenance where
  | aegean
  | configFile
deriving DecidableEq

/-- One call from the driver into an external collaborator, with the
arguments the claims are about. -/
inductive Event where
  | changeDir
  | runBANE (ncores : Nat) (redo : Bool)
  | runAegean (ncores : Nat) (redo : Bool) (write : Bool)
  | mkCatalogueAegean
  | mkCatalogueConfig
  | filterSNR (snr : ℚ) (redo : Bool) (write : Bool)
  | setSpecs
  | mkReport (redo : Bool) (write : Bool) (nbins : Nat)
  | filterQuality (fromConfig : Bool) (redo : Bool) (write : Bool) (verbose : Bool)
  | processConfig (cfg : String) (redo : Bool) (writeAll : Bool) (writeAny : Bool)
  | fitSpectra (redo : Bool) (write : Bool) (fitFlux : Bool)
  | validate (catName : String) (redo : Bool)
  | writeHtmlEnd
  | correctImg (raOffset : ℚ) (decOffset : ℚ) (fluxFactor : ℚ)
deriving DecidableEq

/-- The attributes of the mutable `catalogue` object that the driver
reads: `cat.cat_list` (main catalogue name followed by the
cross-matched reference catalogues) and `cat.count` (matched-source
count per catalogue name). -/
structure CatState where
  cat_list : List String
  count : String → Nat

/-- The docopt dictionary, with each option's raw value.  String-valued
options carry the literal `"None"` default of the usage text. -/
structure RawArgs where
  fits : String
  main : String
  noise : String
  catalogues : String
  filter : String
  snr : ℚ
  verbose : Bool
  refind : Bool
  redo : Bool
  peak_flux : Bool
  write : Bool
  no_write : Bool
  SEDs : String
  SEDfig : String
  telescope : String
  main_dir : String
  ncores : Nat
  nbins : Nat
  source : String
  aegean : String
  correct : Int
deriving DecidableEq

/-- The `parms` dictionary returned by `process_args`. -/
structure Parms where
  main_dir : String
  img : Option String
  verbose : Bool
  source : String
  refind : Bool
  redo : Bool
  use_peak : Bool
  write_any : Bool
  write_all : Bool
  aegean_params : String
  scope : String
  ncores : Nat
  nbins : Nat
  level : Int
  snr : ℚ
  config_files : List String
  SEDs : SEDsVal
  SEDextn : Option String
  fit_flux : Bool
  filter_config : Option String
  main_cat_config : Option String
  noise : Option String
deriving DecidableEq

/-- Characterwise splitting, the semantics of Python `str.split(sep)`
for a one-character separator (empty pieces are kept; the empty string
yields one empty piece). -/
def splitChars (sep : Char) : List Char → List (List Char)
  | [] => [[]]
  | c :: rest =>
      let r := splitChars sep rest
      if c = sep then [] :: r
      else
        match r with
        | [] => [[c]]
        | h :: t => (c :: h) :: t

/-- Python `s.split(sep)` for a one-character separator. -/
def pySplit (s : String) (sep : Char) : List String :=
  (splitChars sep s.data).map String.mk

/-- Python `c in s` for a character `c`. -/
def pyContains (s : String) (c : Char) : Bool :=
  s.data.contains c

/-- `functions.parse_string`, modelled from its use sites: the docopt
string `"None"` stands for Python `None`, any other string for itself. -/
def parse_string (s : String) : Option String :=
  if s = "None" then none else some s

/-- `functions.new_path`, modelled from the driver's comment: prefix a
relative path with `../` (the run moves into an output directory),
preserving `None`. -/
def new_path (p : Option String) : Option String :=
  p.map (fun s => "../" ++ s)

/-- `process_args`: validate the argument combination (returning `none`
models the `sys.exit()` after the warnings) and build the `parms`
dictionary.  `globMatch` is the filesystem `glob.glob` and `resolveDir`
the environment- and filesystem-dependent resolution of `--main-dir`
(lines 106-118 of the source), both external effects. -/
def process_args (globMatch : String → List String) (resolveDir : String → String)
    (a : RawArgs) : Option Parms :=
  if a.main = "None" ∧ (a.fits = "None" ∨ a.noise ≠ "None") then
    none
  else
    let config_files :=
      if pyContains a.catalogues '*' then globMatch a.catalogues
      else pySplit a.catalogues ','
    let SEDs0 := SEDsVal.list (pySplit a.SEDs ',')
    let SEDs := if a.SEDs = "None" then SEDsVal.single "pow" else SEDs0
    let fit_flux := if a.SEDs = "None" then false else true
    let write_any := !a.no_write
    -- Force write_all=False when write_any=False
    let write_all := if !write_any then false else a.write
    some
      { main_dir := resolveDir a.main_dir
        img := parse_string a.fits
        verbose := a.verbose
        source := a.source
        refind := a.refind
        redo := a.redo || a.refind  -- Force redo when refind is True
        use_peak := a.peak_flux
        write_any := write_any
        write_all := write_all
        aegean_params := a.aegean
        scope := a.telescope
        ncores := a.ncores
        nbins := a.nbins
        level := a.correct
        snr := a.snr
        config_files := config_files
        SEDs := SEDs
        SEDextn := parse_string a.SEDfig
        fit_flux := fit_flux
        filter_config := new_path (parse_string a.filter)
        main_cat_config := parse_string a.main
        noise := new_path (parse_string a.noise) }

/-- `create_cat`: load the FITS image if given (running BANE when no
noise map was supplied, and Aegean when no main-catalogue config was
supplied), then build the main catalogue from the config file when one
was supplied.  The second component is the provenance of the returned
catalogue; `none` means no branch assigned `cat`, where Python would
raise `UnboundLocalError` at `return cat`. -/
def create_cat (p : Parms) : List Event × Option Provenance :=
  let step1 : List Event × Option Provenance :=
    if p.img.isSome then
      ([Event.changeDir]
        ++ (if p.noise.isNone then [Event.runBANE p.ncores p.refind] else [])
        ++ (if p.main_cat_config.isNone then
              [Event.runAegean p.ncores p.refind p.write_any,
               Event.mkCatalogueAegean]
            else []),
       if p.main_cat_config.isNone then some Provenance.aegean else none)
    else
      ([Event.changeDir], none)
  if p.main_cat_config.isSome then
    (step1.1 ++ [Event.mkCatalogueConfig], some Provenance.configFile)
  else
    step1

/-- The fixed default quality criteria of `filter_sources`, with the
`redo`/`write`/`verbose` keyword arguments the driver adds, as a
key-value dictionary (used when no filter config file is supplied). -/
def default_filter_kwargs (p : Parms) : String → Option ConfigVal := fun k =>
  if k = "flux_lim" then some (ConfigVal.q (1 / 1000))
  else if k = "ratio_frac" then some (ConfigVal.q (7 / 5))
  else if k = "reject_blends" then some (ConfigVal.b true)
  else if k = "flags" then some (ConfigVal.b true)
  else if k = "psf_tol" then some (ConfigVal.q (3 / 2))
  else if k = "resid_tol" then some (ConfigVal.n 3)
  else if k = "redo" then some (ConfigVal.b p.redo)
  else if k = "write" then some (ConfigVal.b p.write_all)
  else if k = "verbose" then some (ConfigVal.b p.verbose)
  else none

/-- The keyword arguments of the second `cat.filter_sources` call
(quality filtering): when a filter config file is supplied, its parsed
dictionary `cfgDic` updated (Python `dict.update`, overriding) with
`redo`, `write` and `verbose`; otherwise the fixed default criteria. -/
def quality_filter_kwargs (p : Parms) (cfgDic : String → Option ConfigVal) :
    String → Option ConfigVal :=
  match p.filter_config with
  | some _ => fun k =>
      if k = "redo" then some (ConfigVal.b p.redo)
      else if k = "write" then some (ConfigVal.b p.write_all)
      else if k = "verbose" then some (ConfigVal.b p.verbose)
      else cfgDic k
  | none => default_filter_kwargs p

/-- `filter_sources`: SNR cut, `set_specs`, report construction (which
computes the source counts), then the quality-criteria filter.  `cfgDic`
is the parsed content of the filter config file (`config2dic`, external
I/O).  Besides the event list, the kwargs of the quality-filter call are
returned, so theorems can speak about them. -/
def filter_sources (p : Parms) (cfgDic : String → Option ConfigVal) :
    List Event × (String → Option ConfigVal) :=
  ([Event.filterSNR p.snr p.redo p.write_any,
    Event.setSpecs,
    Event.mkReport p.redo p.write_any p.nbins,
    Event.filterQuality p.filter_config.isSome p.redo p.write_all p.verbose],
   quality_filter_kwargs p cfgDic)

/-- The loop of `match_cat` over `args['config_files']`.  `proc` models
`find_file` followed by `cat.process_config_file` for one config file:
`none` is a raised exception (e.g. a configuration error), `some` the
updated catalogue state.  A raised exception propagates: the loop stops
and the overall result is `none`.  Each attempted call is recorded. -/
def match_cat_loop (proc : String → CatState → Option CatState) (p : Parms) :
    List String → CatState → List Event × Option CatState
  | [], cat => ([], some cat)
  | cfg :: rest, cat =>
      let ev := Event.processConfig cfg p.redo p.write_all p.write_any
      match proc cfg cat with
      | none => ([ev], none)
      | some cat1 =>
          let r := match_cat_loop proc p rest cat1
          (ev :: r.1, r.2)

/-- The tail of `match_cat` after its loop: when the loop completed,
run `cat.fit_spectra` when more than one catalogue is in
`cat.cat_list`; when the loop raised, the exception propagates. -/
def match_cat_post (p : Parms) (r : List Event × Option CatState) :
    List Event × Option CatState :=
  match r.2 with
  | none => (r.1, none)
  | some cat1 =>
      if cat1.cat_list.length > 1 then
        (r.1 ++ [Event.fitSpectra p.redo p.write_any p.fit_flux], some cat1)
      else
        (r.1, some cat1)

/-- `match_cat`: process every reference-catalogue config file, then run
`cat.fit_spectra` when more than one catalogue is in `cat.cat_list`.
A `none` result models the uncaught exception aborting the run. -/
def match_cat (proc : String → CatState → Option CatState) (p : Parms)
    (cat : CatState) : List Event × Option CatState :=
  match_cat_post p (match_cat_loop proc p p.config_files cat)

/-- `validate_cat`: run `myReport.validate` for each cross-matched
survey with more than one matched source, close the html report, then
correct the image when `--correct` is 1 or 2.  `image_present` records
whether `create_cat` built a `radio_image` (`args['img']` given);
`metric_val` is the report's metric table.  The `Bool` is `false` when
the code would raise (`image.correct_img` with `image = None`). -/
def validate_cat (image_present : Bool) (p : Parms) (cat : CatState)
    (metric_val : String → ℚ) : List Event × Bool :=
  let validateEvents :=
    (cat.cat_list.drop 1).filterMap (fun cat_name =>
      if cat.count cat_name > 1 then some (Event.validate cat_name p.redo)
      else none)
  let base := validateEvents ++ [Event.writeHtmlEnd]
  let flux_factor : ℚ := if p.level = 2 then metric_val "Flux Ratio" else 1
  if p.level = 1 ∨ p.level = 2 then
    if image_present then
      (base ++ [Event.correctImg (metric_val "RA Offset")
                  (metric_val "DEC Offset") flux_factor], true)
    else
      (base, false)
  else
    (base, true)

/-- `main`: the whole run.  Returns the events emitted in order and
whether the run completed without crashing (`process_args` exiting, the
`UnboundLocalError` in `create_cat`, an exception in the `match_cat`
loop, or the `correct_img`-on-`None` crash all end the run early).
`cat0` is the catalogue state as built by `create_cat`, `proc` the
external cross-match step, `metric_val` the report's metric table. -/
def run (globMatch : String → List String) (resolveDir : String → String)
    (cfgDic : String → Option ConfigVal)
    (proc : String → CatState → Option CatState)
    (a : RawArgs) (cat0 : CatState) (metric_val : String → ℚ) :
    List Event × Bool :=
  match process_args globMatch resolveDir a with
  | none => ([], false)
  | some p =>
      match (create_cat p).2 with
      | none => ((create_cat p).1, false)
      | some _ =>
          match (match_cat proc p cat0).2 with
          | none =>
              ((create_cat p).1 ++ ((filter_sources p cfgDic).1 ++
                (match_cat proc p cat0).1), false)
          | some cat1 =>
              ((create_cat p).1 ++ ((filter_sources p cfgDic).1 ++
                ((match_cat proc p cat0).1 ++
                  (validate_cat p.img.isSome p cat1 metric_val).1)),
               (validate_cat p.img.isSome p cat1 metric_val).2)

/-- The pipeline stage of each collaborator call, following the order
the spec claims: catalogue acquisition, SNR filter, `set_specs`, report
construction (source counts), quality filter, cross-matching, spectral
fitting, per-reference validation, report close, image correction. -/
def phase : Event → Nat
  | Event.changeDir => 0
  | Event.runBANE _ _ => 0
  | Event.runAegean _ _ _ => 0
  | Event.mkCatalogueAegean => 0
  | Event.mkCatalogueConfig => 0
  | Event.filterSNR _ _ _ => 1
  | Event.setSpecs => 2
  | Event.mkReport _ _ _ => 3
  | Event.filterQuality _ _ _ _ => 4
  | Event.processConfig _ _ _ _ => 5
  | Event.fitSpectra _ _ _ => 6
  | Event.validate _ _ => 7
  | Event.writeHtmlEnd => 8
  | Event.correctImg _ _ _ => 9

/-! ### Concrete scenario used by witnesses -/

/-- A concrete argument set: FITS image given, no main catalogue, no
noise map, two reference catalogues, correction level 1. -/
def a0 : RawArgs :=
  { fits := "image.fits", main := "None", noise := "None"
    catalogues := "NVSS_config.txt,SUMSS_config.txt", filter := "None"
    snr := 5, verbose := false, refind := false, redo := false
    peak_flux := false, write := true, no_write := false
    SEDs := "None", SEDfig := "None", telescope := "ASKAP"
    main_dir := "/aces", ncores := 8, nbins := 50, source := "html"
    aegean := "--floodclip=3", correct := 1 }

/-- Trivial `glob.glob` stand-in (no pattern in `a0.catalogues`). -/
def g0 : String → List String := fun _ => []

/-- Identity `--main-dir` resolution. -/
def rdir0 : String → String := fun s => s

/-- The parameter dictionary `process_args` builds from `a0`. -/
def p0 : Parms :=
  { main_dir := "/aces", img := some "image.fits", verbose := false
    source := "html", refind := false, redo := false, use_peak := false
    write_any := true, write_all := true, aegean_params := "--floodclip=3"
    scope := "ASKAP", ncores := 8, nbins := 50, level := 1, snr := 5
    config_files := ["NVSS_config.txt", "SUMSS_config.txt"]
    SEDs := SEDsVal.single "pow", SEDextn := none, fit_flux := false
    filter_config := none, main_cat_config := none, noise := none }

/-! ### C9 and C10: `process_args` -/

/-- C9: `process_args` terminates the process (the `sys.exit` after the
warnings) exactly when `--main` is `'None'` and either `--fits` is
`'None'` or `--noise` is not `'None'`; in every other case it returns a
parameter dictionary. -/
theorem process_args_exit_iff (globMatch : String → List String)
    (resolveDir : String → String) (a : RawArgs) :
    process_args globMatch resolveDir a = none ↔
      a.main = "None" ∧ (a.fits = "None" ∨ a.noise ≠ "None") := by
  unfold process_args
  split <;> simp_all

/-- C10: the write flags returned by `process_args` satisfy
`write_any = not --no-write`, `write_all` is forced to `false` whenever
`write_any` is `false` (so `--no-write` overrides `--write`), and no
parms carry `write_all = true` with `write_any = false`. -/
theorem write_flags_invariant (globMatch : String → List String)
    (resolveDir : String → String) (a : RawArgs) (p : Parms)
    (h : process_args globMatch resolveDir a = some p) :
    p.write_any = !a.no_write ∧
    (p.write_any = false → p.write_all = false) ∧
    ¬(p.write_all = true ∧ p.write_any = false) := by
  unfold process_args at h
  split at h
  · exact absurd h (by simp)
  · obtain rfl := Option.some_inj.mp h
    refine ⟨rfl, ?_, ?_⟩ <;> cases a.no_write <;> simp

/-- Witness for C10 at the concrete arguments `a0`. -/
theorem write_flags_invariant_witness :
    p0.write_any = !a0.no_write ∧
    (p0.write_any = false → p0.write_all = false) ∧
    ¬(p0.write_all = true ∧ p0.write_any = false) :=
  write_flags_invariant g0 rdir0 a0 p0 (by decide)

/-! ### C4 and C7: `process_args` flags and `create_cat` branches -/

/-- Field values of a successfully built parameter dictionary, together
with the negation of the exit condition. -/
lemma process_args_fields {globMatch : String → List String}
    {resolveDir : String → String} {a : RawArgs} {p : Parms}
    (h : process_args globMatch resolveDir a = some p) :
    p.refind = a.refind ∧ p.redo = (a.redo || a.refind) ∧
    p.img = parse_string a.fits ∧ p.main_cat_config = parse_string a.main ∧
    p.noise = new_path (parse_string a.noise) ∧ p.ncores = a.ncores ∧
    p.write_any = !a.no_write ∧
    ¬(a.main = "None" ∧ (a.fits = "None" ∨ a.noise ≠ "None")) := by
  unfold process_args at h
  split at h
  · exact absurd h (by simp)
  · obtain rfl := Option.some_inj.mp h
    exact ⟨rfl, rfl, rfl, rfl, rfl, rfl, rfl, by assumption⟩

/-- Under a successful `process_args`, a missing main-catalogue config
forces a FITS image to be present. -/
lemma main_none_imp_img {globMatch : String → List String}
    {resolveDir : String → String} {a : RawArgs} {p : Parms}
    (h : process_args globMatch resolveDir a = some p)
    (hm : p.main_cat_config = none) : p.img.isSome := by
  obtain ⟨-, -, himg, hmain, -, -, -, hguard⟩ := process_args_fields h
  rw [hmain] at hm
  unfold parse_string at hm
  split at hm
  · next heq =>
      rw [himg]
      unfold parse_string
      split
      · next hfits => exact absurd ⟨heq, Or.inl hfits⟩ hguard
      · simp
  · simp at hm

/-- Any `run_BANE` call in `create_cat` carries `redo = refind`. -/
lemma runBANE_mem_create_cat {p : Parms} {n : Nat} {rd : Bool}
    (h : Event.runBANE n rd ∈ (create_cat p).1) : rd = p.refind ∧ n = p.ncores := by
  unfold create_cat at h
  by_cases h1 : p.img.isSome <;> by_cases h2 : p.noise.isNone <;>
    by_cases h3 : p.main_cat_config.isSome <;>
    simp_all [Option.isNone_iff_eq_none, Option.isSome_iff_ne_none]

/-- Any `run_Aegean` call in `create_cat` carries `redo = refind`, and
only happens when no main-catalogue config was supplied. -/
lemma runAegean_mem_create_cat {p : Parms} {n : Nat} {rd w : Bool}
    (h : Event.runAegean n rd w ∈ (create_cat p).1) :
    rd = p.refind ∧ p.main_cat_config = none := by
  unfold create_cat at h
  by_cases h1 : p.img.isSome <;> by_cases h2 : p.noise.isNone <;>
    by_cases h3 : p.main_cat_config.isSome <;>
    simp_all [Option.isNone_iff_eq_none, Option.isSome_iff_ne_none]

/-- C4: forcing source finding forces a full redo but not conversely:
`process_args` sets `redo` to `--redo OR --refind` (so `--refind`
implies `redo` downstream), while `run_BANE` and `run_Aegean` receive
`redo` equal to `--refind` only, so `--redo` alone never re-runs source
finding. -/
theorem refind_forces_redo_not_conversely (globMatch : String → List String)
    (resolveDir : String → String) (a : RawArgs) (p : Parms)
    (h : process_args globMatch resolveDir a = some p) :
    p.redo = (a.redo || a.refind) ∧
    (a.refind = true → p.redo = true) ∧
    (∀ n rd, Event.runBANE n rd ∈ (create_cat p).1 → rd = a.refind) ∧
    (∀ n rd w, Event.runAegean n rd w ∈ (create_cat p).1 → rd = a.refind) := by
  obtain ⟨hrf, hrd, -, -, -, -, -, -⟩ := process_args_fields h
  refine ⟨hrd, ?_, ?_, ?_⟩
  · intro hr
    rw [hrd, hr, Bool.or_true]
  · intro n rd hm
    rw [(runBANE_mem_create_cat hm).1, hrf]
  · intro n rd w hm
    rw [(runAegean_mem_create_cat hm).1, hrf]

/-- The arguments `a0` with `--refind` set. -/
def a1 : RawArgs := { a0 with refind := true }

/-- The parameter dictionary `process_args` builds from `a1`: `redo` is
forced on by `refind`. -/
def p1 : Parms := { p0 with refind := true, redo := true }

/-- Witness for C4 at the concrete arguments `a1` (`--refind` on,
`--redo` off): `redo` is forced on, and the `run_BANE` call that occurs
receives `redo = --refind`. -/
theorem refind_forces_redo_not_conversely_witness :
    p1.redo = true ∧ true = a1.refind :=
  ⟨(refind_forces_redo_not_conversely g0 rdir0 a1 p1 (by decide)).2.1 rfl,
   (refind_forces_redo_not_conversely g0 rdir0 a1 p1 (by decide)).2.2.1
     8 true (by decide)⟩

/-- C7: the primary catalogue's provenance is decided by the
main-catalogue config: the catalogue is built from Aegean exactly when
no main-catalogue config file is supplied; when one is supplied the
catalogue is built from it (and Aegean is not run) even if a FITS image
is also given; BANE runs exactly when a FITS image is supplied without
a noise map. -/
theorem create_cat_provenance (globMatch : String → List String)
    (resolveDir : String → String) (a : RawArgs) (p : Parms)
    (h : process_args globMatch resolveDir a = some p) :
    ((create_cat p).2 = some Provenance.aegean ↔ p.main_cat_config = none) ∧
    ((create_cat p).2 = some Provenance.configFile ↔ p.main_cat_config ≠ none) ∧
    ((∃ n rd w, Event.runAegean n rd w ∈ (create_cat p).1) ↔
      p.main_cat_config = none) ∧
    ((∃ n rd, Event.runBANE n rd ∈ (create_cat p).1) ↔
      (p.img.isSome ∧ p.noise = none)) := by
  have himg := @main_none_imp_img globMatch resolveDir a p h
  unfold create_cat
  by_cases h1 : p.img.isSome <;> by_cases h2 : p.noise.isNone <;>
    by_cases h3 : p.main_cat_config.isSome <;>
    simp_all [Option.isNone_iff_eq_none, Option.isSome_iff_ne_none]

/-- Witness for C7 at the concrete arguments `a0`: FITS image given,
no main-catalogue config, no noise map. -/
theorem create_cat_provenance_witness :
    ((create_cat p0).2 = some Provenance.aegean ↔ p0.main_cat_config = none) ∧
    ((create_cat p0).2 = some Provenance.configFile ↔ p0.main_cat_config ≠ none) ∧
    ((∃ n rd w, Event.runAegean n rd w ∈ (create_cat p0).1) ↔
      p0.main_cat_config = none) ∧
    ((∃ n rd, Event.runBANE n rd ∈ (create_cat p0).1) ↔
      (p0.img.isSome ∧ p0.noise = none)) :=
  create_cat_provenance g0 rdir0 a0 p0 (by decide)

/-! ### C1 and C2: `validate_cat` -/

/-- No `correct_img` call sits among the validation events and the
report close of `validate_cat`. -/
lemma not_correctImg_mem_base {cat : CatState} {p : Parms} {ra de ff : ℚ} :
    Event.correctImg ra de ff ∉
      ((cat.cat_list.drop 1).filterMap (fun cat_name =>
          if cat.count cat_name > 1 then some (Event.validate cat_name p.redo)
          else none) ++ [Event.writeHtmlEnd]) := by
  intro h
  rw [List.mem_append] at h
  rcases h with h | h
  · rw [List.mem_filterMap] at h
    obtain ⟨a, -, ha⟩ := h
    split at ha <;> simp_all
  · simp_all

/-- Exact characterisation of the `correct_img` calls of
`validate_cat`. -/
lemma correctImg_mem_validate_cat {imgp : Bool} {p : Parms} {cat : CatState}
    {mv : String → ℚ} {ra de ff : ℚ} :
    Event.correctImg ra de ff ∈ (validate_cat imgp p cat mv).1 ↔
      ((p.level = 1 ∨ p.level = 2) ∧ imgp = true ∧ ra = mv "RA Offset" ∧
        de = mv "DEC Offset" ∧
        ff = (if p.level = 2 then mv "Flux Ratio" else 1)) := by
  unfold validate_cat
  by_cases hl : p.level = 1 ∨ p.level = 2
  · rw [if_pos hl]
    cases imgp
    · rw [if_neg (by simp)]
      constructor
      · intro h
        exact absurd h not_correctImg_mem_base
      · rintro ⟨-, h, -⟩
        exact absurd h (by simp)
    · rw [if_pos rfl]
      rw [List.mem_append]
      constructor
      · rintro (h | h)
        · exact absurd h not_correctImg_mem_base
        · rw [List.mem_singleton, Event.correctImg.injEq] at h
          exact ⟨hl, rfl, h.1, h.2.1, h.2.2⟩
      · rintro ⟨-, -, rfl, rfl, rfl⟩
        right
        exact List.mem_singleton.mpr rfl
  · rw [if_neg hl]
    constructor
    · intro h
      exact absurd h not_correctImg_mem_base
    · rintro ⟨h, -⟩
      exact absurd h hl

/-- C1: image correction is applied only when explicitly requested and
never flux-only: at level 0 no `correct_img` call is made; at level 1
`correct_img` receives the RA/DEC Offset metrics and a flux factor of
1; at level 2 it receives the offsets and the Flux Ratio metric; every
`correct_img` call carries the positional offsets and happens only at
level 1 or 2. -/
theorem validate_cat_correction_levels (imgp : Bool) (p : Parms)
    (cat : CatState) (mv : String → ℚ) :
    (p.level = 0 →
      ∀ ra de ff, Event.correctImg ra de ff ∉ (validate_cat imgp p cat mv).1) ∧
    (imgp = true → p.level = 1 →
      Event.correctImg (mv "RA Offset") (mv "DEC Offset") 1 ∈
        (validate_cat imgp p cat mv).1) ∧
    (imgp = true → p.level = 2 →
      Event.correctImg (mv "RA Offset") (mv "DEC Offset") (mv "Flux Ratio") ∈
        (validate_cat imgp p cat mv).1) ∧
    (∀ ra de ff, Event.correctImg ra de ff ∈ (validate_cat imgp p cat mv).1 →
      ra = mv "RA Offset" ∧ de = mv "DEC Offset" ∧
        (p.level = 1 ∨ p.level = 2)) := by
  refine ⟨?_, ?_, ?_, ?_⟩
  · intro h0 ra de ff hmem
    rcases (correctImg_mem_validate_cat.mp hmem).1 with h | h <;> omega
  · intro hi h1
    refine correctImg_mem_validate_cat.mpr ⟨Or.inl h1, hi, rfl, rfl, ?_⟩
    rw [if_neg (by omega)]
  · intro hi h2
    refine correctImg_mem_validate_cat.mpr ⟨Or.inr h2, hi, rfl, rfl, ?_⟩
    rw [if_pos h2]
  · intro ra de ff hmem
    have h := correctImg_mem_validate_cat.mp hmem
    exact ⟨h.2.2.1, h.2.2.2.1, h.1⟩

/-- A concrete catalogue state after cross-matching: the NVSS branch
matched a single source. -/
def catNVSS : CatState :=
  { cat_list := ["ASKAP", "NVSS"]
    count := fun n => if n = "NVSS" then 1 else 5 }

/-- A concrete metric table. -/
def mv0 : String → ℚ := fun s =>
  if s = "Flux Ratio" then 2
  else if s = "RA Offset" then 1 / 2
  else if s = "DEC Offset" then -1 / 3
  else 0

/-- Witness for C1 at level 1 with an image present: the `correct_img`
call is made with the offset metrics and flux factor 1. -/
theorem validate_cat_correction_levels_witness :
    Event.correctImg (mv0 "RA Offset") (mv0 "DEC Offset") 1 ∈
      (validate_cat true p0 catNVSS mv0).1 :=
  (validate_cat_correction_levels true p0 catNVSS mv0).2.1 rfl rfl

/-- C2 (amended): `myReport.validate` is called for a reference
catalogue exactly when it is in `cat.cat_list[1:]` and its matched
count exceeds 1; for a catalogue with at most one matched source the
call is skipped, not replaced by an undetermined result. -/
theorem validate_called_iff_count_gt_one (imgp : Bool) (p : Parms)
    (cat : CatState) (mv : String → ℚ) (n : String) (r : Bool) :
    Event.validate n r ∈ (validate_cat imgp p cat mv).1 ↔
      (n ∈ cat.cat_list.drop 1 ∧ cat.count n > 1 ∧ r = p.redo) := by
  have hbase :
      Event.validate n r ∈
        ((cat.cat_list.drop 1).filterMap (fun cat_name =>
            if cat.count cat_name > 1 then
              some (Event.validate cat_name p.redo)
            else none) ++ [Event.writeHtmlEnd]) ↔
        (n ∈ cat.cat_list.drop 1 ∧ cat.count n > 1 ∧ r = p.redo) := by
    rw [List.mem_append, List.mem_filterMap]
    constructor
    · rintro (⟨a, ha, hfa⟩ | h)
      · split at hfa
        · rw [Option.some_inj, Event.validate.injEq] at hfa
          obtain ⟨rfl, rfl⟩ := hfa
          exact ⟨ha, by assumption, rfl⟩
        · exact absurd hfa (by simp)
      · simp_all
    · rintro ⟨hmem, hcnt, rfl⟩
      exact Or.inl ⟨n, hmem, by rw [if_pos hcnt]⟩
  unfold validate_cat
  by_cases hl : p.level = 1 ∨ p.level = 2
  · rw [if_pos hl]
    cases imgp
    · rw [if_neg (by simp)]
      exact hbase
    · rw [if_pos rfl, List.mem_append]
      constructor
      · rintro (h | h)
        · exact hbase.mp h
        · exact absurd h (by simp)
      · intro h
        exact Or.inl (hbase.mpr h)
  · rw [if_neg hl]
    exact hbase

/-- C2 (counterexample): with the reference catalogue NVSS having a
single matched source, NVSS is in the catalogue list but no
`myReport.validate` call is made for it: its metrics are silently
absent, not reported as undetermined. -/
theorem validate_skipped_low_count_cex :
    "NVSS" ∈ catNVSS.cat_list.drop 1 ∧ catNVSS.count "NVSS" ≤ 1 ∧
    ∀ r, Event.validate "NVSS" r ∉ (validate_cat true p0 catNVSS mv0).1 := by
  decide

/-! ### C8: quality filter criteria -/

/-- C8: when a filter config is supplied, its key-value criteria are
passed to `cat.filter_sources` unchanged, augmented (overriding) only
with `redo`, `write` and `verbose`; when none is supplied, exactly the
fixed default criteria `flux_lim=1e-3`, `ratio_frac=1.4`,
`reject_blends=True`, `flags=True`, `psf_tol=1.5`, `resid_tol=3` are
applied (with `redo`, `write`, `verbose`), not an empty criteria set. -/
theorem quality_filter_criteria (p : Parms)
    (cfgDic : String → Option ConfigVal) :
    (∀ cfg, p.filter_config = some cfg →
      ((filter_sources p cfgDic).2 "redo" = some (ConfigVal.b p.redo) ∧
       (filter_sources p cfgDic).2 "write" = some (ConfigVal.b p.write_all) ∧
       (filter_sources p cfgDic).2 "verbose" = some (ConfigVal.b p.verbose) ∧
       ∀ k, k ≠ "redo" → k ≠ "write" → k ≠ "verbose" →
         (filter_sources p cfgDic).2 k = cfgDic k)) ∧
    (p.filter_config = none →
      ((filter_sources p cfgDic).2 = default_filter_kwargs p ∧
       (filter_sources p cfgDic).2 "flux_lim" = some (ConfigVal.q (1 / 1000)) ∧
       (filter_sources p cfgDic).2 "ratio_frac" = some (ConfigVal.q (7 / 5)) ∧
       (filter_sources p cfgDic).2 "reject_blends" = some (ConfigVal.b true) ∧
       (filter_sources p cfgDic).2 "flags" = some (ConfigVal.b true) ∧
       (filter_sources p cfgDic).2 "psf_tol" = some (ConfigVal.q (3 / 2)) ∧
       (filter_sources p cfgDic).2 "resid_tol" = some (ConfigVal.n 3) ∧
       (filter_sources p cfgDic).2 "redo" = some (ConfigVal.b p.redo) ∧
       (filter_sources p cfgDic).2 "write" = some (ConfigVal.b p.write_all) ∧
       (filter_sources p cfgDic).2 "verbose" = some (ConfigVal.b p.verbose) ∧
       ∀ k, k ∉ ["flux_lim", "ratio_frac", "reject_blends", "flags",
                 "psf_tol", "resid_tol", "redo", "write", "verbose"] →
         (filter_sources p cfgDic).2 k = none)) := by
  constructor
  · intro cfg hc
    simp only [filter_sources]
    unfold quality_filter_kwargs
    rw [hc]
    refine ⟨rfl, rfl, rfl, ?_⟩
    intro k h1 h2 h3
    simp only [if_neg h1, if_neg h2, if_neg h3]
  · intro hc
    simp only [filter_sources]
    unfold quality_filter_kwargs
    rw [hc]
    refine ⟨rfl, rfl, rfl, rfl, rfl, rfl, rfl, rfl, rfl, rfl, ?_⟩
    intro k hk
    simp only [List.mem_cons, List.not_mem_nil, or_false, not_or] at hk
    obtain ⟨h1, h2, h3, h4, h5, h6, h7, h8, h9⟩ := hk
    unfold default_filter_kwargs
    simp only [if_neg h1, if_neg h2, if_neg h3, if_neg h4, if_neg h5,
      if_neg h6, if_neg h7, if_neg h8, if_neg h9]

/-- The parsed filter config dictionary used by witnesses (empty). -/
def d0 : String → Option ConfigVal := fun _ => none

/-- Witness for C8 at `p0` (no filter config supplied): the default
criteria are applied. -/
theorem quality_filter_criteria_witness :
    (filter_sources p0 d0).2 = default_filter_kwargs p0 ∧
    (filter_sources p0 d0).2 "flux_lim" = some (ConfigVal.q (1 / 1000)) ∧
    (filter_sources p0 d0).2 "ratio_frac" = some (ConfigVal.q (7 / 5)) ∧
    (filter_sources p0 d0).2 "reject_blends" = some (ConfigVal.b true) ∧
    (filter_sources p0 d0).2 "flags" = some (ConfigVal.b true) ∧
    (filter_sources p0 d0).2 "psf_tol" = some (ConfigVal.q (3 / 2)) ∧
    (filter_sources p0 d0).2 "resid_tol" = some (ConfigVal.n 3) ∧
    (filter_sources p0 d0).2 "redo" = some (ConfigVal.b p0.redo) ∧
    (filter_sources p0 d0).2 "write" = some (ConfigVal.b p0.write_all) ∧
    (filter_sources p0 d0).2 "verbose" = some (ConfigVal.b p0.verbose) ∧
    ∀ k, k ∉ ["flux_lim", "ratio_frac", "reject_blends", "flags",
              "psf_tol", "resid_tol", "redo", "write", "verbose"] →
      (filter_sources p0 d0).2 k = none :=
  (quality_filter_criteria p0 d0).2 rfl

/-! ### C5 and C3: `match_cat` -/

/-- Every event of the `match_cat` loop is a `process_config_file`
call with the driver's `redo` and write flags. -/
lemma match_cat_loop_events (proc : String → CatState → Option CatState)
    (p : Parms) :
    ∀ cfgs cat, ∀ e ∈ (match_cat_loop proc p cfgs cat).1,
      ∃ c, e = Event.processConfig c p.redo p.write_all p.write_any := by
  intro cfgs
  induction cfgs with
  | nil => intro cat e he; simp [match_cat_loop] at he
  | cons cfg rest ih =>
      intro cat e he
      unfold match_cat_loop at he
      rcases hpc : proc cfg cat with - | cat1 <;> rw [hpc] at he
      · rw [List.mem_singleton] at he
        exact ⟨cfg, he⟩
      · rw [List.mem_cons] at he
        rcases he with rfl | he
        · exact ⟨cfg, rfl⟩
        · exact ih cat1 e he

/-- C5: spectral fitting runs if and only if at least two catalogues
matched: when the `match_cat` loop completes, `fit_spectra` is invoked
exactly when `cat.cat_list` has length greater than 1, at most once,
and only after every reference catalogue has been cross-matched. -/
theorem fit_spectra_iff_multiple_catalogues
    (proc : String → CatState → Option CatState) (p : Parms)
    (cat cat1 : CatState) (h : (match_cat proc p cat).2 = some cat1) :
    ∃ le, (∀ e ∈ le, ∃ c, e = Event.processConfig c p.redo p.write_all p.write_any) ∧
      (match_cat proc p cat).1 =
        le ++ (if cat1.cat_list.length > 1 then
                 [Event.fitSpectra p.redo p.write_any p.fit_flux]
               else []) := by
  unfold match_cat match_cat_post at h ⊢
  rcases hr : (match_cat_loop proc p p.config_files cat).2 with - | cat2
  · rw [hr] at h
    simp at h
  · rw [hr] at h
    dsimp only at h
    refine ⟨(match_cat_loop proc p p.config_files cat).1,
      match_cat_loop_events proc p p.config_files cat, ?_⟩
    by_cases hgt : cat2.cat_list.length > 1
    · rw [if_pos hgt] at h
      obtain rfl : cat2 = cat1 := Option.some_inj.mp h
      simp [hgt]
    · rw [if_neg hgt] at h
      obtain rfl : cat2 = cat1 := Option.some_inj.mp h
      simp [hgt]

/-- A cross-match step that always succeeds, appending the config file
name to the catalogue list. -/
def procOk : String → CatState → Option CatState :=
  fun cfg cat => some { cat_list := cat.cat_list ++ [cfg], count := cat.count }

/-- The catalogue state as `create_cat` built it: only the main
catalogue, nothing matched yet. -/
def cat0 : CatState := { cat_list := ["ASKAP"], count := fun _ => 0 }

/-- The catalogue state after both reference catalogues of `p0` were
processed by `procOk`. -/
def cat1w : CatState :=
  { cat_list := ["ASKAP", "NVSS_config.txt", "SUMSS_config.txt"]
    count := cat0.count }

/-- Witness for C5: a run in which both reference catalogues match, so
the catalogue list has three entries and `fit_spectra` is invoked. -/
theorem fit_spectra_iff_multiple_catalogues_witness :
    ∃ le, (∀ e ∈ le, ∃ c, e = Event.processConfig c p0.redo p0.write_all p0.write_any) ∧
      (match_cat procOk p0 cat0).1 =
        le ++ (if cat1w.cat_list.length > 1 then
                 [Event.fitSpectra p0.redo p0.write_any p0.fit_flux]
               else []) :=
  fit_spectra_iff_multiple_catalogues procOk p0 cat0 cat1w rfl

/-- C3 (amended): a failure while processing one reference-catalogue
config file aborts the whole loop, not just that catalogue's branch:
when the run aborts, the events are exactly the `process_config_file`
attempts for the first `k+1` config files for some position `k`, so no
config file after the failing one is processed, and no spectral
fitting or validation happens. -/
theorem match_cat_abort_after_failure
    (proc : String → CatState → Option CatState) (p : Parms)
    (cat : CatState) (h : (match_cat proc p cat).2 = none) :
    ∃ k, k < p.config_files.length ∧
      (match_cat proc p cat).1 =
        (p.config_files.take (k + 1)).map
          (fun c => Event.processConfig c p.redo p.write_all p.write_any) := by
  have key : ∀ (cfgs : List String) (c0 : CatState),
      (match_cat_loop proc p cfgs c0).2 = none →
      ∃ k, k < cfgs.length ∧
        (match_cat_loop proc p cfgs c0).1 =
          (cfgs.take (k + 1)).map
            (fun c => Event.processConfig c p.redo p.write_all p.write_any) := by
    intro cfgs
    induction cfgs with
    | nil => intro c0 hl; simp [match_cat_loop] at hl
    | cons cfg rest ih =>
        intro c0 hl
        unfold match_cat_loop at hl ⊢
        rcases hpc : proc cfg c0 with - | cat1
        · rw [hpc] at hl
          exact ⟨0, by simp, by simp⟩
        · rw [hpc] at hl
          dsimp only at hl ⊢
          obtain ⟨k, hk, hev⟩ := ih cat1 hl
          refine ⟨k + 1, by simpa using hk, ?_⟩
          simp only [List.take_succ_cons, List.map_cons, List.cons.injEq]
          exact ⟨by trivial, hev⟩
  unfold match_cat match_cat_post at h ⊢
  rcases hr : (match_cat_loop proc p p.config_files cat).2 with - | cat2
  · rw [hr] at h
    dsimp only at h ⊢
    exact key p.config_files cat hr
  · rw [hr] at h
    dsimp only at h
    by_cases hgt : cat2.cat_list.length > 1 <;> simp [hgt] at h
  
/-- A cross-match step that raises a configuration error on the NVSS
config file and succeeds on any other. -/
def procBad : String → CatState → Option CatState :=
  fun cfg cat =>
    if cfg = "NVSS_config.txt" then none
    else some { cat_list := cat.cat_list ++ [cfg], count := cat.count }

/-- Witness for C3 (amended) at the concrete run where the first
reference catalogue fails. -/
theorem match_cat_abort_after_failure_witness :
    ∃ k, k < p0.config_files.length ∧
      (match_cat procBad p0 cat0).1 =
        (p0.config_files.take (k + 1)).map
          (fun c => Event.processConfig c p0.redo p0.write_all p0.write_any) :=
  match_cat_abort_after_failure procBad p0 cat0 rfl

/-- C3 (counterexample): with two reference catalogues in the list and
the first raising a configuration error, the second is never processed
(no `process_config_file` call for it appears) and the run aborts, so
the remaining catalogue is not validated either. -/
theorem match_cat_abort_cex :
    p0.config_files = ["NVSS_config.txt", "SUMSS_config.txt"] ∧
    (∀ rd wa wy, Event.processConfig "SUMSS_config.txt" rd wa wy ∉
      (match_cat procBad p0 cat0).1) ∧
    (match_cat procBad p0 cat0).2.isNone = true := by
  decide

/-! ### C6: pipeline ordering -/

/-- A list of events of one common phase is phase-monotone. -/
lemma pairwise_phase_of_const {l : List Event} {k : Nat}
    (h : ∀ e ∈ l, phase e = k) :
    List.Pairwise (fun x y => phase x ≤ phase y) l := by
  induction l with
  | nil => exact List.Pairwise.nil
  | cons a t ih =>
      refine List.Pairwise.cons (fun b hb => ?_)
        (ih (fun e he => h e (List.mem_cons_of_mem a he)))
      rw [h a (List.mem_cons_self a t), h b (List.mem_cons_of_mem a hb)]

/-- Concatenating two phase-monotone lists separated by a phase bound
is phase-monotone. -/
lemma pairwise_phase_append {l1 l2 : List Event} (k : Nat)
    (h1 : List.Pairwise (fun x y => phase x ≤ phase y) l1)
    (h2 : List.Pairwise (fun x y => phase x ≤ phase y) l2)
    (b1 : ∀ e ∈ l1, phase e ≤ k) (b2 : ∀ e ∈ l2, k ≤ phase e) :
    List.Pairwise (fun x y => phase x ≤ phase y) (l1 ++ l2) := by
  rw [List.pairwise_append]
  exact ⟨h1, h2, fun x hx y hy => le_trans (b1 x hx) (b2 y hy)⟩

/-- Every `create_cat` event is an acquisition event (phase 0). -/
lemma phase_create_cat (p : Parms) : ∀ e ∈ (create_cat p).1, phase e = 0 := by
  intro e he
  rcases hi : p.img with - | v <;> rcases hm : p.main_cat_config with - | u <;>
    rcases hn : p.noise with - | w <;>
    simp [create_cat, hi, hm, hn] at he <;> aesop

/-- `filter_sources` events sit between the SNR cut and the quality
filter (phases 1 to 4). -/
lemma phase_filter_sources (p : Parms) (d : String → Option ConfigVal) :
    ∀ e ∈ (filter_sources p d).1, 1 ≤ phase e ∧ phase e ≤ 4 := by
  intro e he
  simp only [filter_sources, List.mem_cons, List.not_mem_nil, or_false] at he
  rcases he with rfl | rfl | rfl | rfl <;> simp [phase]

/-- The `filter_sources` events are phase-monotone. -/
lemma pairwise_filter_sources (p : Parms) (d : String → Option ConfigVal) :
    List.Pairwise (fun x y => phase x ≤ phase y) (filter_sources p d).1 := by
  simp [filter_sources, List.pairwise_cons, phase]

/-- Every `match_cat` event is a cross-match or spectral-fit event
(phase 5 or 6). -/
lemma phase_match_cat (proc : String → CatState → Option CatState)
    (p : Parms) (cat : CatState) :
    ∀ e ∈ (match_cat proc p cat).1, 5 ≤ phase e ∧ phase e ≤ 6 := by
  intro e he
  unfold match_cat match_cat_post at he
  rcases hr : (match_cat_loop proc p p.config_files cat).2 with - | c2
  · rw [hr] at he
    dsimp only at he
    obtain ⟨c, rfl⟩ := match_cat_loop_events proc p p.config_files cat e he
    simp [phase]
  · rw [hr] at he
    dsimp only at he
    by_cases hgt : c2.cat_list.length > 1
    · rw [if_pos hgt] at he
      dsimp only at he
      rcases List.mem_append.mp he with h | h
      · obtain ⟨c, rfl⟩ := match_cat_loop_events proc p p.config_files cat e h
        simp [phase]
      · rw [List.mem_singleton] at h
        subst h
        simp [phase]
    · rw [if_neg hgt] at he
      dsimp only at he
      obtain ⟨c, rfl⟩ := match_cat_loop_events proc p p.config_files cat e he
      simp [phase]

/-- The `match_cat` events are phase-monotone (cross-matching first,
the spectral fit last). -/
lemma pairwise_match_cat (proc : String → CatState → Option CatState)
    (p : Parms) (cat : CatState) :
    List.Pairwise (fun x y => phase x ≤ phase y) (match_cat proc p cat).1 := by
  unfold match_cat match_cat_post
  have hloop : List.Pairwise (fun x y => phase x ≤ phase y)
      (match_cat_loop proc p p.config_files cat).1 :=
    pairwise_phase_of_const (fun e he => by
      obtain ⟨c, rfl⟩ := match_cat_loop_events proc p p.config_files cat e he
      rfl)
  rcases hr : (match_cat_loop proc p p.config_files cat).2 with - | c2
  · exact hloop
  · dsimp only
    by_cases hgt : c2.cat_list.length > 1
    · rw [if_pos hgt]
      refine pairwise_phase_append 5 hloop (by simp) ?_ ?_
      · intro e he
        obtain ⟨c, rfl⟩ := match_cat_loop_events proc p p.config_files cat e he
        exact le_refl 5
      · intro e he
        rw [List.mem_singleton] at he
        subst he
        simp [phase]
    · rw [if_neg hgt]
      exact hloop

/-- The validation events and report close of `validate_cat` have
phases 7 and 8. -/
lemma phase_validate_base {cat : CatState} {p : Parms} {e : Event}
    (h : e ∈ ((cat.cat_list.drop 1).filterMap (fun cat_name =>
        if cat.count cat_name > 1 then some (Event.validate cat_name p.redo)
        else none) ++ [Event.writeHtmlEnd])) :
    7 ≤ phase e ∧ phase e ≤ 8 := by
  rcases List.mem_append.mp h with h | h
  · rw [List.mem_filterMap] at h
    obtain ⟨a, -, ha⟩ := h
    split at ha
    · obtain rfl := Option.some_inj.mp ha
      simp [phase]
    · exact absurd ha (by simp)
  · rw [List.mem_singleton] at h
    subst h
    simp [phase]

/-- Every `validate_cat` event has phase at least 7. -/
lemma phase_validate_cat (imgp : Bool) (p : Parms) (cat : CatState)
    (mv : String → ℚ) :
    ∀ e ∈ (validate_cat imgp p cat mv).1, 7 ≤ phase e := by
  intro e he
  unfold validate_cat at he
  by_cases hl : p.level = 1 ∨ p.level = 2
  · rw [if_pos hl] at he
    cases imgp
    · rw [if_neg (by simp)] at he
      exact (phase_validate_base he).1
    · rw [if_pos rfl] at he
      dsimp only at he
      rcases List.mem_append.mp he with h | h
      · exact (phase_validate_base h).1
      · rw [List.mem_singleton] at h
        subst h
        simp [phase]
  · rw [if_neg hl] at he
    exact (phase_validate_base he).1

/-- The `validate_cat` events are phase-monotone: validation calls,
then the report close, then the optional image correction. -/
lemma pairwise_validate_cat (imgp : Bool) (p : Parms) (cat : CatState)
    (mv : String → ℚ) :
    List.Pairwise (fun x y => phase x ≤ phase y)
      (validate_cat imgp p cat mv).1 := by
  have hbase : List.Pairwise (fun x y => phase x ≤ phase y)
      ((cat.cat_list.drop 1).filterMap (fun cat_name =>
          if cat.count cat_name > 1 then some (Event.validate cat_name p.redo)
          else none) ++ [Event.writeHtmlEnd]) := by
    refine pairwise_phase_append 8 ?_ (by simp) ?_ ?_
    · refine pairwise_phase_of_const (k := 7) (fun e he => ?_)
      rw [List.mem_filterMap] at he
      obtain ⟨a, -, ha⟩ := he
      split at ha
      · obtain rfl := Option.some_inj.mp ha
        rfl
      · exact absurd ha (by simp)
    · intro e he
      rw [List.mem_filterMap] at he
      obtain ⟨a, -, ha⟩ := he
      split at ha
      · obtain rfl := Option.some_inj.mp ha
        simp [phase]
      · exact absurd ha (by simp)
    · intro e he
      rw [List.mem_singleton] at he
      subst he
      simp [phase]
  unfold validate_cat
  by_cases hl : p.level = 1 ∨ p.level = 2
  · rw [if_pos hl]
    cases imgp
    · rw [if_neg (by simp)]
      exact hbase
    · rw [if_pos rfl]
      dsimp only
      refine pairwise_phase_append 9 hbase (by simp) ?_ ?_
      · intro e he
        exact le_trans (phase_validate_base he).2 (by omega)
      · intro e he
        rw [List.mem_singleton] at he
        subst he
        simp [phase]
  · rw [if_neg hl]
    exact hbase

/-- Under a successful `process_args`, `create_cat` always assigns the
catalogue (the `UnboundLocalError` branch is unreachable). -/
lemma create_cat_some {globMatch : String → List String}
    {resolveDir : String → String} {a : RawArgs} {p : Parms}
    (h : process_args globMatch resolveDir a = some p) :
    (create_cat p).2 ≠ none := by
  have himg := @main_none_imp_img globMatch resolveDir a p h
  unfold create_cat
  rcases hm : p.main_cat_config with - | u
  · have hi : p.img.isSome := himg hm
    simp [hm, hi]
  · simp [hm]

/-- C6: the pipeline steps execute in the fixed order acquisition, SNR
filter, `set_specs`, report construction (source counts), quality
filter, cross-matching, spectral fitting, validation, report close,
optional image correction: every run's event trace is monotone in the
pipeline phase; and every run that passes argument processing contains
the SNR filter, the report construction and the quality filter, so the
source counts are computed after the SNR cut and before the quality
filter. -/
theorem pipeline_phase_order (globMatch : String → List String)
    (resolveDir : String → String) (cfgDic : String → Option ConfigVal)
    (proc : String → CatState → Option CatState) (a : RawArgs)
    (cv : CatState) (mv : String → ℚ) :
    List.Pairwise (fun x y => phase x ≤ phase y)
      (run globMatch resolveDir cfgDic proc a cv mv).1 ∧
    (∀ p, process_args globMatch resolveDir a = some p →
      (Event.filterSNR p.snr p.redo p.write_any ∈
         (run globMatch resolveDir cfgDic proc a cv mv).1 ∧
       Event.mkReport p.redo p.write_any p.nbins ∈
         (run globMatch resolveDir cfgDic proc a cv mv).1 ∧
       Event.filterQuality p.filter_config.isSome p.redo p.write_all p.verbose ∈
         (run globMatch resolveDir cfgDic proc a cv mv).1)) := by
  unfold run
  rcases hpa : process_args globMatch resolveDir a with - | p
  · constructor
    · exact List.Pairwise.nil
    · intro q hq
      exact absurd hq (by simp)
  · dsimp only
    rcases hc : (create_cat p).2 with - | prov
    · exact absurd hc (create_cat_some hpa)
    · dsimp only
      rcases hm2 : (match_cat proc p cv).2 with - | cat1
      · dsimp only
        constructor
        · refine pairwise_phase_append 1
            (pairwise_phase_of_const (phase_create_cat p)) ?_ ?_ ?_
          · refine pairwise_phase_append 5 (pairwise_filter_sources p cfgDic)
              (pairwise_match_cat proc p cv) ?_ ?_
            · intro e he
              exact le_trans (phase_filter_sources p cfgDic e he).2 (by omega)
            · intro e he
              exact (phase_match_cat proc p cv e he).1
          · intro e he
            rw [phase_create_cat p e he]
            omega
          · intro e he
            rcases List.mem_append.mp he with h | h
            · exact (phase_filter_sources p cfgDic e h).1
            · exact le_trans (by omega) (phase_match_cat proc p cv e h).1
        · intro q hq
          obtain rfl := Option.some_inj.mp hq
          refine ⟨?_, ?_, ?_⟩ <;> simp [filter_sources]
      · dsimp only
        constructor
        · refine pairwise_phase_append 1
            (pairwise_phase_of_const (phase_create_cat p)) ?_ ?_ ?_
          · refine pairwise_phase_append 5 (pairwise_filter_sources p cfgDic)
              ?_ ?_ ?_
            · refine pairwise_phase_append 7 (pairwise_match_cat proc p cv)
                (pairwise_validate_cat p.img.isSome p cat1 mv) ?_ ?_
              · intro e he
                exact le_trans (phase_match_cat proc p cv e he).2 (by omega)
              · exact phase_validate_cat p.img.isSome p cat1 mv
            · intro e he
              exact le_trans (phase_filter_sources p cfgDic e he).2 (by omega)
            · intro e he
              rcases List.mem_append.mp he with h | h
              · exact (phase_match_cat proc p cv e h).1
              · exact le_trans (by omega)
                  (phase_validate_cat p.img.isSome p cat1 mv e h)
          · intro e he
            rw [phase_create_cat p e he]
            omega
          · intro e he
            rcases List.mem_append.mp he with h | h
            · exact (phase_filter_sources p cfgDic e h).1
            · rcases List.mem_append.mp h with h2 | h2
              · exact le_trans (by omega) (phase_match_cat proc p cv e h2).1
              · exact le_trans (by omega)
                  (phase_validate_cat p.img.isSome p cat1 mv e h2)
        · intro q hq
          obtain rfl := Option.some_inj.mp hq
          refine ⟨?_, ?_, ?_⟩ <;> simp [filter_sources]

/-- Witness for C6 at the concrete full run: the SNR filter, report
construction and quality filter all occur. -/
theorem pipeline_phase_order_witness :
    Event.filterSNR p0.snr p0.redo p0.write_any ∈
      (run g0 rdir0 d0 procOk a0 cat0 mv0).1 ∧
    Event.mkReport p0.redo p0.write_any p0.nbins ∈
      (run g0 rdir0 d0 procOk a0 cat0 mv0).1 ∧
    Event.filterQuality p0.filter_config.isSome p0.redo p0.write_all p0.verbose ∈
      (run g0 rdir0 d0 procOk a0 cat0 mv0).1 :=
  (pipeline_phase_order g0 rdir0 d0 procOk a0 cat0 mv0).2 p0 (by decide)
